import Mathlib

/-!
Verification of the interval-resolution and keyboard-hook logic of
`src/source/index.ts` (the `useInterval`, `useKey`, `useMetaKey`,
`useKeyPress` and `useEscapeKey` hooks), as a shallow embedding in Lean.

Durations and thresholds are modelled as `Int` (the spec data model:
signed integer milliseconds).  The JS value `undefined`, which arises as
`[].sort()[0]` when the filtered duration set is empty, is modelled by
`Option Int` with `none` standing for `undefined`.
-/

namespace Hooks

/-- Most-significant-digit-first decimal digits of a natural number, with
explicit fuel so that the definition is structurally recursive and reduces
in the kernel.  The fuel `n` itself is always sufficient. -/
def digitsAux : Nat → Nat → List Nat
  | _, 0 => []
  | 0, _ => []
  | fuel + 1, n + 1 => digitsAux fuel ((n + 1) / 10) ++ [(n + 1) % 10]

/-- Decimal digit string of a natural number, as JS `String(n)` produces
for a non-negative integer (the digit for 0 is the single character "0"). -/
def natStr (n : Nat) : List Nat :=
  if n = 0 then [0] else digitsAux n n

/-- UTF-16 code units of the JS string conversion `String(n)` of an
integer in the safe decimal range: code 45 is the minus sign, digit d has
code 48 + d. -/
def jsCodes (n : Int) : List Nat :=
  if n < 0 then 45 :: (natStr n.natAbs).map (fun d => 48 + d)
  else (natStr n.toNat).map (fun d => 48 + d)

/-- Lexicographic comparison of code-unit sequences: this is how JS
compares two strings with the `<` relational operator, and the order the
default `Array.prototype.sort` comparator induces. -/
def lexLe : List Nat → List Nat → Bool
  | [], _ => true
  | _ :: _, [] => false
  | x :: xs, y :: ys =>
      if x < y then true
      else if y < x then false
      else lexLe xs ys

/-- The order used by `Array.prototype.sort()` when called with no
comparator, as on line 28 of the source: elements are converted to
strings and compared lexicographically by UTF-16 code units. -/
def jsLe (a b : Int) : Bool := lexLe (jsCodes a) (jsCodes b)

/-- Insertion of an element into a list sorted by `jsLe`. -/
def jsInsert (x : Int) : List Int → List Int
  | [] => [x]
  | y :: ys => if jsLe x y then x :: y :: ys else y :: jsInsert x ys

/-- `Array.prototype.sort()` with the default comparator: a sort of the
array under `jsLe` (string comparison).  Any comparison sort yields the
same head element, which is all the source reads. -/
def jsSort : List Int → List Int
  | [] => []
  | x :: xs => jsInsert x (jsSort xs)

/-- The scalar tail of the `useEffect` body of `useInterval`, after the
array branch: the argument is the current value of the local `interval`,
where `none` models the JS value `undefined` (the result of `sort()[0]`
on an empty array).

Source lines 31-38:
`if (interval < 0) return` — for `undefined` the comparison is false
(NaN), so control falls through;
`if (interval < threshold) interval = threshold` — again false for
`undefined`, so no clamping happens;
`setTimeout(cb, interval)` — the outer `some v` records that a timer is
armed with delay argument `v` (`none` = `undefined` is passed). -/
def clampStep (interval : Option Int) (threshold : Int) : Option (Option Int) :=
  match interval with
  | some n =>
      if n < 0 then none
      else if n < threshold then some (some threshold) else some (some n)
  | none => some none

/-- The `useEffect` body of `useInterval` (source lines 24-38), with the
timer side effect reified: the result is `none` when the effect returns
without arming a timer, and `some v` when `setTimeout` is called with
delay argument `v` (`v = none` meaning the JS value `undefined`). -/
def resolveRaw (input : Int ⊕ List Int) (threshold : Int) : Option (Option Int) :=
  match input with
  | Sum.inl n => clampStep (some n) threshold
  | Sum.inr arr =>
      if arr.length = 0 then none
      else clampStep ((jsSort (arr.filter (fun ms => 0 ≤ ms))).head?) threshold

/-- The resolved effective delay of the armed timer, if any.  `setTimeout`
converts a missing or `undefined` timeout argument to 0 (ToNumber gives
NaN, which the IDL conversion turns into 0), so a raw result of
`some none` arms a timer with delay 0. -/
def resolve (input : Int ⊕ List Int) (threshold : Int) : Option Int :=
  (resolveRaw input threshold).map (fun v => v.getD 0)

/-- A keyboard event, with the fields the source reads. -/
structure KeyboardEvent where
  keyCode : Int
  shiftKey : Bool
  metaKey : Bool
  altKey : Bool
  ctrlKey : Bool

/-- The handler `useEscapeKey` registers through `useKeyPress` (source
lines 88-92): on a keypress event it invokes the callback exactly when
`e.keyCode === 27`.  The result records the callback invocation: `some a`
when the callback ran and returned `a`, `none` when it was not invoked. -/
def useEscapeKeyHandler {α : Type} (callback : KeyboardEvent → α)
    (e : KeyboardEvent) : Option α :=
  if e.keyCode = 27 then some (callback e) else none

/-- The predicate the `useMetaKey` handler feeds to its callback: any of
shift, platform-meta, alt or control active. -/
def metaActive (e : KeyboardEvent) : Bool :=
  e.shiftKey || e.metaKey || e.altKey || e.ctrlKey

/-! ### Heap model for the mutation claim

JS arrays are passed by reference and `Array.prototype.sort` mutates its
receiver in place, while `Array.prototype.filter` allocates a fresh
array.  To state that `useInterval` never mutates the array handed to it,
we model a heap of arrays: references are indices into a list, and
allocation appends at the end. -/

/-- A heap of JS arrays; a reference is an index into the heap. -/
abbrev Store := List (List Int)

/-- Dereference an array; a dangling reference reads as the empty array. -/
def readArr : Store → Nat → List Int
  | [], _ => []
  | a :: _, 0 => a
  | _ :: rest, n + 1 => readArr rest n

/-- Overwrite the array behind a reference (in-place mutation). -/
def writeArr : Store → Nat → List Int → Store
  | [], _, _ => []
  | _ :: rest, 0, a => a :: rest
  | b :: rest, n + 1, a => b :: writeArr rest n a

/-- Allocate a fresh array, returning the new heap and the new reference. -/
def allocArr (s : Store) (a : List Int) : Store × Nat :=
  (s ++ [a], s.length)

/-- `interval.filter(ms => ms >= 0)`: reads the receiver and allocates a
fresh array holding the kept elements. -/
def jsFilterNonneg (s : Store) (r : Nat) : Store × Nat :=
  allocArr s ((readArr s r).filter (fun ms => 0 ≤ ms))

/-- `.sort()`: sorts the receiver in place (the reference is unchanged,
the array behind it is overwritten with its sorted permutation). -/
def jsSortInPlace (s : Store) (r : Nat) : Store :=
  writeArr s r (jsSort (readArr s r))

/-- The `useEffect` body of `useInterval` when the argument is an array,
heap-aware: the argument array is passed by reference `r` into heap `s`.
Returns the reified timer result together with the heap after the call. -/
def useIntervalEffectRef (s : Store) (r : Nat) (threshold : Int) :
    Option (Option Int) × Store :=
  if (readArr s r).length = 0 then (none, s)
  else
    (clampStep
        ((readArr (jsSortInPlace (jsFilterNonneg s r).1 (jsFilterNonneg s r).2)
          (jsFilterNonneg s r).2).head?) threshold,
      jsSortInPlace (jsFilterNonneg s r).1 (jsFilterNonneg s r).2)

/-! ### Heap lemmas -/

theorem readArr_append_lt (s l : Store) (r : Nat) (h : r < s.length) :
    readArr (s ++ l) r = readArr s r := by
  induction s generalizing r with
  | nil => exact absurd h (Nat.not_lt_zero r)
  | cons a rest ih =>
      cases r with
      | zero => rfl
      | succ n => exact ih n (Nat.lt_of_succ_lt_succ h)

theorem readArr_writeArr_ne (s : Store) (q r : Nat) (a : List Int)
    (h : r ≠ q) : readArr (writeArr s q a) r = readArr s r := by
  induction s generalizing q r with
  | nil => rfl
  | cons b rest ih =>
      cases q with
      | zero =>
          cases r with
          | zero => exact absurd rfl h
          | succ n => rfl
      | succ m =>
          cases r with
          | zero => rfl
          | succ n => exact ih m n (fun he => h (congrArg Nat.succ he))

theorem readArr_append_length (s : Store) (a : List Int) :
    readArr (s ++ [a]) s.length = a := by
  induction s with
  | nil => rfl
  | cons b rest ih => exact ih

theorem readArr_writeArr_eq (s : Store) (q : Nat) (a : List Int)
    (h : q < s.length) : readArr (writeArr s q a) q = a := by
  induction s generalizing q with
  | nil => exact absurd h (Nat.not_lt_zero q)
  | cons b rest ih =>
      cases q with
      | zero => rfl
      | succ m => exact ih m (Nat.lt_of_succ_lt_succ h)

theorem readArr_nonempty_lt (s : Store) (r : Nat)
    (h : readArr s r ≠ []) : r < s.length := by
  induction s generalizing r with
  | nil => exact absurd rfl h
  | cons a rest ih =>
      cases r with
      | zero => exact Nat.succ_pos _
      | succ n => exact Nat.succ_lt_succ (ih n h)

/-- Coherence of the heap-aware effect with the pure resolver: the timer
result computed through the heap is exactly `resolveRaw` of the array the
reference held on entry. -/
theorem useIntervalEffectRef_fst (s : Store) (r : Nat) (t : Int) :
    (useIntervalEffectRef s r t).1 = resolveRaw (Sum.inr (readArr s r)) t := by
  unfold useIntervalEffectRef resolveRaw
  by_cases h : (readArr s r).length = 0
  · simp [h]
  · have hr : r < s.length := by
      refine readArr_nonempty_lt s r (fun he => h ?_)
      rw [he]
      rfl
    simp only [h, if_false]
    unfold jsSortInPlace jsFilterNonneg allocArr
    rw [readArr_writeArr_eq _ _ _ (by simp),
      readArr_append_length]

/-! ### Claims -/

/-- C1: the claim says that for a duration set with a non-negative
element, `resolve` picks the smallest non-negative element, in particular
`resolve([300, 1000], 0) = 300`.  The code instead sorts the filtered
array with the default `Array.prototype.sort`, which compares string
representations, so `[300, 1000].sort()` is `[1000, 300]` and the timer
is armed with 1000, contradicting the claim and the doc comment of
`useInterval` (the smallest non-negative number is used). -/
theorem resolve_sort_lexicographic_at_300_1000 :
    resolve (Sum.inr [300, 1000]) 0 = some 1000 := by decide

/-- C2: the claim says an all-negative duration set yields no timer.  In
the code the filtered array is empty, `sort()[0]` is `undefined`,
`undefined < 0` is false, so control falls through to
`setTimeout(cb, undefined)`, arming a timer with delay 0 — contradicting
the claim and the doc comment (negative intervals are discarded). -/
theorem resolve_all_negative_schedules_zero :
    resolve (Sum.inr [-5, -1]) 0 = some 0 := by decide

/-- C3: for every threshold, the empty duration set yields no timer. -/
theorem resolve_empty_set_none (t : Int) :
    resolve (Sum.inr []) t = none := rfl

/-- C4: a negative single duration is discarded for every threshold; the
threshold is never applied to it. -/
theorem resolve_negative_single_none (d t : Int) (h : d < 0) :
    resolve (Sum.inl d) t = none := by
  simp [resolve, resolveRaw, clampStep, h]

/-- Witness for C4 at the concrete input of the claim. -/
theorem resolve_negative_single_none_witness :
    (-300 : Int) < 0 ∧ resolve (Sum.inl (-300)) 1000 = none :=
  ⟨by decide, resolve_negative_single_none (-300) 1000 (by decide)⟩

/-- C5: a non-negative single duration below a non-negative threshold is
raised to the threshold, and one at or above it is returned unchanged. -/
theorem resolve_single_threshold_clamp (d t : Int) (hd : 0 ≤ d) (_ht : 0 ≤ t) :
    (d < t → resolve (Sum.inl d) t = some t) ∧
      (t ≤ d → resolve (Sum.inl d) t = some d) := by
  constructor
  · intro hlt
    simp [resolve, resolveRaw, clampStep, not_lt.mpr hd, hlt]
  · intro hle
    simp [resolve, resolveRaw, clampStep, not_lt.mpr hd, not_lt.mpr hle]

/-- Witness for C5 at the concrete inputs of the claim. -/
theorem resolve_single_threshold_clamp_witness :
    (0 : Int) ≤ 300 ∧ (0 : Int) ≤ 1000 ∧
      resolve (Sum.inl 300) 1000 = some 1000 ∧
      resolve (Sum.inl 1500) 1000 = some 1500 :=
  ⟨by decide, by decide,
    (resolve_single_threshold_clamp 300 1000 (by decide) (by decide)).1 (by decide),
    (resolve_single_threshold_clamp 1500 1000 (by decide) (by decide)).2 (by decide)⟩

/-- C6: the claimed invariant — the effective duration passed to the
timer primitive is absent or both ≥ threshold and ≥ 0 — fails: for the
all-negative set `[-5, -1]` with threshold 5 the code arms a timer with
delay 0 (from `setTimeout(cb, undefined)`), and 0 is below the
threshold 5. -/
theorem resolve_invariant_violation_at_threshold_5 :
    resolve (Sum.inr [-5, -1]) 5 = some 0 ∧ ¬ ((5 : Int) ≤ 0) := by
  constructor
  · decide
  · decide

/-- C7: `resolve` is a pure function of its arguments — two calls with
identical input and threshold yield identical results; no hidden state
exists in the model. -/
theorem resolve_deterministic (input : Int ⊕ List Int) (threshold : Int) :
    resolve input threshold = resolve input threshold := rfl

/-- C8: a negative threshold is accepted verbatim and never raises a
kept (non-negative) single duration. -/
theorem resolve_negative_threshold_identity (d t : Int) (ht : t < 0)
    (hd : 0 ≤ d) : resolve (Sum.inl d) t = some d := by
  have hdt : ¬ d < t := not_lt.mpr (le_of_lt (lt_of_lt_of_le ht hd))
  simp [resolve, resolveRaw, clampStep, not_lt.mpr hd, hdt]

/-- Witness for C8 at a concrete input. -/
theorem resolve_negative_threshold_identity_witness :
    (-3 : Int) < 0 ∧ (0 : Int) ≤ 5 ∧ resolve (Sum.inl 5) (-3) = some 5 :=
  ⟨by decide, by decide,
    resolve_negative_threshold_identity 5 (-3) (by decide) (by decide)⟩

/-- C9: the escape-key handler invokes its callback exactly on events
whose legacy key code is 27, passing the event through; any other key
code never invokes the callback. -/
theorem useEscapeKey_invokes_iff_keyCode_27 {α : Type}
    (cb : KeyboardEvent → α) (e : KeyboardEvent) :
    ((useEscapeKeyHandler cb e).isSome ↔ e.keyCode = 27) ∧
      (e.keyCode = 27 → useEscapeKeyHandler cb e = some (cb e)) := by
  constructor
  · unfold useEscapeKeyHandler
    by_cases h : e.keyCode = 27 <;> simp [h]
  · intro h
    simp [useEscapeKeyHandler, h]

/-- C10: the `useInterval` effect does not mutate its input array — the
array the caller passed by reference reads the same after the call as
before: `filter` allocates a fresh array and the in-place `sort` only
overwrites that fresh allocation. -/
theorem useIntervalEffectRef_preserves_input (s : Store) (r : Nat) (t : Int) :
    readArr ((useIntervalEffectRef s r t).2) r = readArr s r := by
  unfold useIntervalEffectRef
  by_cases h : (readArr s r).length = 0
  · simp [h]
  · have hr : r < s.length := by
      refine readArr_nonempty_lt s r (fun he => h ?_)
      rw [he]
      rfl
    simp only [h, if_false]
    unfold jsSortInPlace jsFilterNonneg allocArr
    rw [readArr_writeArr_ne _ _ _ _ (Nat.ne_of_lt hr),
      readArr_append_lt _ _ _ hr]

end Hooks
